import Mathlib

/-!
Verification development for the browser interaction state machine of
`src/browser/stealthRunner.ts`: the Cloudflare challenge resolver, the
input delivery pipeline, the submission trigger, and the two-phase
completion detector.  Each stateful loop is embedded as a function over a
finite trace of per-tick environment samples (the values the DOM queries
would return on each tick); the deadline of a polling loop is modelled by
the length of its trace.
-/

namespace Oracle

/-! ### Generic substring search (model of JS regex literal alternation with the i flag) -/

/-- Boolean test that `pat` is a prefix of `hay` (over character lists). -/
def isPrefixList (pat hay : List Char) : Bool :=
  match pat, hay with
  | [], _ => true
  | _ :: _, [] => false
  | p :: ps, h :: hs => p == h && isPrefixList ps hs

/-- Boolean test that `pat` occurs as a contiguous subsequence of `hay`. -/
def containsSeq (hay pat : List Char) : Bool :=
  match hay with
  | [] => isPrefixList pat []
  | _ :: hs => isPrefixList pat hay || containsSeq hs pat

/-- The characters of a string, folded to lower case. -/
def lowerChars (s : String) : List Char :=
  s.data.map Char.toLower

/-- The whitespace set a JS `s.trim()` strips (ECMA-262 TrimString):
WhiteSpace — TAB, VT, FF, SP, NBSP, ZWNBSP and the Unicode space
separators — together with the line terminators LF, CR, LS, PS. -/
def isJsWhitespace (c : Char) : Bool :=
  c.toNat = 0x9 || c.toNat = 0xA || c.toNat = 0xB || c.toNat = 0xC ||
  c.toNat = 0xD || c.toNat = 0x20 || c.toNat = 0xA0 || c.toNat = 0x1680 ||
  (0x2000 ≤ c.toNat && c.toNat ≤ 0x200A) ||
  c.toNat = 0x2028 || c.toNat = 0x2029 || c.toNat = 0x202F ||
  c.toNat = 0x205F || c.toNat = 0x3000 || c.toNat = 0xFEFF

/-- The characters of a string with leading and trailing JS whitespace
removed, the meaning of a JS `s.trim()`. -/
def trimChars (s : String) : List Char :=
  ((s.data.dropWhile isJsWhitespace).reverse.dropWhile isJsWhitespace).reverse

/-- Case-insensitive substring test, the meaning of a JS `/lit/i.test(s)`
for a literal without metacharacters. -/
def containsCI (hay pat : String) : Bool :=
  containsSeq (lowerChars hay) (lowerChars pat)

/-! ### Completion detector (waitForAnswer, stealthRunner.ts lines 310-389) -/

/-- `/Thinking|Reasoning|Answer now/i.test(currentText)` (line 339). -/
def isThinking (s : String) : Bool :=
  containsCI s "Thinking" || containsCI s "Reasoning" || containsCI s "Answer now"

/-- Specification-side reading of a case-insensitive substring occurrence:
`pat` occurs somewhere in `s` up to letter case. -/
def OccursCI (pat s : String) : Prop :=
  ∃ l r, lowerChars s = l ++ lowerChars pat ++ r

/-- Specification-side reading of the thinking-phase test: one of the three
phrases occurs anywhere in the sampled text, case-insensitively. -/
def ThinkingPhrase (s : String) : Prop :=
  OccursCI "Thinking" s ∨ OccursCI "Reasoning" s ∨ OccursCI "Answer now" s

/-- The values sampled from the page on one tick of the Phase-2 loop:
`getLatestAnswerText` (line 327), presence of the stop button (line 328),
and the copy-button completion marker on the last turn (lines 331-336). -/
structure TickSample where
  currentText : String
  isGenerating : Bool
  isDone : Bool
  deriving DecidableEq, Repr

/-- The loop's running state: `lastText`, `stableCount`, `emptyLoops`
(lines 321-323). -/
structure LoopState where
  lastText : String
  stableCount : Nat
  emptyLoops : Nat
  deriving DecidableEq, Repr

/-- Counter update of one tick (lines 341-356): growth (strictly longer
sampled text) resets both counters and records the text; otherwise
non-empty text bumps `stableCount` and empty text bumps `emptyLoops`. -/
def stepCounters (st : LoopState) (s : TickSample) : LoopState :=
  if st.lastText.length < s.currentText.length then
    ⟨s.currentText, 0, 0⟩
  else if 0 < s.currentText.length then
    ⟨st.lastText, st.stableCount + 1, st.emptyLoops⟩
  else
    ⟨st.lastText, st.stableCount, st.emptyLoops + 1⟩

/-- Which `break` of the Phase-2 loop fired, if any. -/
inductive ExitReason where
  | done
  | stable
  | emptyTimeout
  | deadline
  deriving DecidableEq, Repr

/-- Exit checks of one tick, evaluated on the post-update state (lines
362-380): Exit A (copy marker), Exit B (stop button gone and stable),
Exit C (empty-tick safety valve). -/
def tickExit (st : LoopState) (s : TickSample) : Option ExitReason :=
  if s.isDone = true ∧ 0 < s.currentText.length ∧ ¬ isThinking s.currentText = true then
    some .done
  else if s.isGenerating = false ∧ 20 < st.stableCount ∧ 0 < s.currentText.length ∧
      ¬ isThinking s.currentText = true then
    some .stable
  else if 300 < st.emptyLoops then
    some .emptyTimeout
  else
    none

/-- The Phase-2 streaming/stability loop (lines 326-383) over a finite
trace of samples; an exhausted trace is the overall deadline. -/
def waitLoop (st : LoopState) : List TickSample → LoopState × ExitReason
  | [] => (st, .deadline)
  | s :: rest =>
    let st' := stepCounters st s
    match tickExit st' s with
    | some r => (st', r)
    | none => waitLoop st' rest

/-- Phase 1 (`waitForNewAssistantMessage`, lines 411-419): the trace is the
per-tick results of `countAssistantMessages`; returns as soon as a sample
strictly exceeds `initialCount`, and throws when the deadline passes. -/
def waitForNewAssistantMessage (counts : List Nat) (initialCount : Nat) :
    Except String Unit :=
  match counts with
  | [] => .error "Assistant response did not arrive before timeout"
  | c :: rest =>
    if initialCount < c then .ok ()
    else waitForNewAssistantMessage rest initialCount

/-- The value `waitForAnswer` returns (line 388): text and markup re-sampled
after the loop, plus elapsed time. -/
structure AnswerOutcome where
  text : String
  html : Option String
  elapsedMs : Nat
  deriving DecidableEq, Repr

/-- `waitForAnswer` (lines 310-389): Phase 1 may throw; the Phase-2 loop
always falls through to final extraction, whose fresh samples are
`finalText`/`finalHtml`. -/
def waitForAnswer (arrivalCounts : List Nat) (initialCount : Nat)
    (trace : List TickSample) (finalText : String) (finalHtml : Option String)
    (elapsed : Nat) : Except String AnswerOutcome :=
  match waitForNewAssistantMessage arrivalCounts initialCount with
  | .error e => .error e
  | .ok _ =>
    let _ := waitLoop ⟨"", 0, 0⟩ trace
    .ok ⟨finalText, finalHtml, elapsed⟩

/-! ### Challenge resolver (solveCloudflare, lines 213-242) -/

/-- The polling loop of `solveCloudflare` over a trace of per-tick
challenge detections (`true` = challenge present), with the running
`consecutiveCleanChecks` counter and the 1-based tick number; `some n`
means a normal return (Clean declared) on tick `n`, `none` means the
deadline passed. -/
def solveGo : List Bool → Nat → Nat → Option Nat
  | [], _, _ => none
  | challenge :: rest, cleanChecks, tick =>
    if challenge then
      solveGo rest 0 (tick + 1)
    else if 3 < cleanChecks + 1 then
      some (tick + 1)
    else
      solveGo rest (cleanChecks + 1) (tick + 1)

/-- `solveCloudflare` run on a trace of detections, starting from
`consecutiveCleanChecks = 0` (line 215). -/
def solveCloudflareRun (readings : List Bool) : Option Nat :=
  solveGo readings 0 0

/-- Specification-side view of the clean streak: the length of the maximal
all-clean suffix of the readings processed so far. -/
def cleanSuffixLen (readings : List Bool) : Nat :=
  (readings.reverse.takeWhile (fun r => !r)).length

/-! ### Input delivery pipeline (lines 122-152) -/

/-- The three delivery strategies, in the order the code escalates. -/
inductive Strategy where
  | paste
  | typing
  | inject
  deriving DecidableEq, Repr

/-- Environment of one delivery run: the input element's value after the
paste attempt (empty when paste failed) and after the typing attempt
(when typing is performed).  The element's value changes only through
these actions, so each read-back returns the value the latest action
left. -/
structure DeliveryEnv where
  pasteResult : String
  typeResult : String
  deriving DecidableEq, Repr

/-- Result of the pipeline: the strategies attempted, in order, and the
final value of the `currentVal` variable (the line-143 read-back; the
code never re-reads after direct injection). -/
structure DeliveryTrace where
  attempts : List Strategy
  finalVal : String
  deriving DecidableEq, Repr

/-- The pipeline of lines 122-152: paste, read back (line 132), type iff
the read-back trims empty (lines 134-141), read back again (line 143),
inject iff still trims empty (lines 144-152). -/
def runDelivery (env : DeliveryEnv) : DeliveryTrace :=
  let currentVal := env.pasteResult
  let step :=
    if trimChars currentVal = [] then ([Strategy.paste, Strategy.typing], env.typeResult)
    else ([Strategy.paste], currentVal)
  let currentVal2 := step.2
  if trimChars currentVal2 = [] then ⟨step.1 ++ [Strategy.inject], currentVal2⟩
  else ⟨step.1, currentVal2⟩

/-- The read-back value after the typing step of the pipeline. -/
def readAfterTyping (env : DeliveryEnv) : String :=
  if trimChars env.pasteResult = [] then env.typeResult else env.pasteResult

/-! ### Submission trigger (lines 156-186) -/

/-- Observable submission actions. -/
inductive SubmitAction where
  | wake
  | clickSend
  | pressEnter
  deriving DecidableEq, Repr

/-- The submission decision procedure.  `sendButton` is `some d` when the
send control exists with initial disabled state `d`, `none` when absent;
`currentVal` is the pipeline's final read-back; `disabledAfterWake` is the
disabled state the re-check observes after the wake sequence. -/
def submitActions (sendButton : Option Bool) (currentVal : String)
    (disabledAfterWake : Bool) : List SubmitAction :=
  match sendButton with
  | none => [SubmitAction.pressEnter]
  | some isDisabled0 =>
    let step :=
      if isDisabled0 = true ∧ ¬ trimChars currentVal = [] then
        ([SubmitAction.wake], disabledAfterWake)
      else
        ([], isDisabled0)
    if step.2 = true then step.1 ++ [SubmitAction.pressEnter]
    else step.1 ++ [SubmitAction.clickSend]

/-! ### The whole run (runStealth, lines 11-211) -/

/-- The distinguishable failures `runStealth` can throw. -/
inductive RunFailure where
  | promptRequired
  | promptHandleNotFound
  | answerDidNotArrive
  deriving DecidableEq, Repr

/-- `options.prompt?.trim()` followed by the falsiness check of lines
12-15: `none` exactly when the prompt is missing or trims to empty. -/
def checkPromptText (prompt : Option String) : Option (List Char) :=
  match prompt with
  | none => none
  | some s => if trimChars s = [] then none else some (trimChars s)

/-- The result record of lines 200-210. -/
structure BrowserRunResult where
  answerText : String
  answerMarkdown : String
  answerHtml : Option String
  tookMs : Nat
  answerTokens : Nat
  answerChars : Nat
  deriving DecidableEq, Repr

/-- Construction of the result record (lines 190-210): every derived field
comes from the one extracted answer text; `est` abstracts
`estimateTokenCount` from `./utils.js`. -/
def buildRunResult (est : String → Nat) (answer : AnswerOutcome) : BrowserRunResult :=
  { answerText := answer.text
    answerMarkdown := answer.text
    answerHtml := answer.html
    tookMs := answer.elapsedMs
    answerTokens := est answer.text
    answerChars := answer.text.length }

/-- Environment of a whole run: every value the page hands back, in the
order the phases consume it. -/
structure RunEnv where
  cloudflareReadings : List Bool
  promptHandleFound : Bool
  delivery : DeliveryEnv
  initialAssistantCount : Nat
  sendButton : Option Bool
  disabledAfterWake : Bool
  arrivalCounts : List Nat
  answerTrace : List TickSample
  finalText : String
  finalHtml : Option String
  finalElapsedMs : Nat
  deriving Repr

/-- Conversion of the completion detector's outcome into the run's own
result or failure (lines 188-210): a Phase-1 throw surfaces as the
arrival failure, a normal outcome is packaged into the result record. -/
def finishRun (est : String → Nat) (w : Except String AnswerOutcome) :
    Except RunFailure BrowserRunResult :=
  match w with
  | .error _ => .error .answerDidNotArrive
  | .ok answer => .ok (buildRunResult est answer)

/-- `runStealth` (lines 11-211): prompt check first (lines 12-15, before
any page interaction), challenge resolver (line 93, never fatal), prompt
handle lookup (lines 110-111), delivery pipeline, submission trigger,
completion detector, result construction. -/
def runStealth (est : String → Nat) (prompt : Option String) (env : RunEnv) :
    Except RunFailure BrowserRunResult :=
  match checkPromptText prompt with
  | none => .error .promptRequired
  | some _promptText =>
    let _ := solveCloudflareRun env.cloudflareReadings
    if env.promptHandleFound = false then .error .promptHandleNotFound
    else
      let delivered := runDelivery env.delivery
      let _actions := submitActions env.sendButton delivered.finalVal env.disabledAfterWake
      finishRun est (waitForAnswer env.arrivalCounts env.initialAssistantCount
        env.answerTrace env.finalText env.finalHtml env.finalElapsedMs)

/-! ### Helper lemmas -/

lemma isPrefixList_iff (pat hay : List Char) :
    isPrefixList pat hay = true ↔ ∃ r, hay = pat ++ r := by
  induction pat generalizing hay with
  | nil => simp [isPrefixList]
  | cons p ps ih =>
    cases hay with
    | nil => simp [isPrefixList]
    | cons h hs =>
      simp only [isPrefixList, Bool.and_eq_true, beq_iff_eq, ih]
      constructor
      · rintro ⟨rfl, r, rfl⟩
        exact ⟨r, rfl⟩
      · rintro ⟨r, hr⟩
        injection hr with h1 h2
        exact ⟨h1.symm, r, h2⟩

lemma containsSeq_iff (hay pat : List Char) :
    containsSeq hay pat = true ↔ ∃ l r, hay = l ++ pat ++ r := by
  induction hay with
  | nil =>
    rw [show containsSeq [] pat = isPrefixList pat [] from rfl, isPrefixList_iff]
    constructor
    · rintro ⟨r, hr⟩
      exact ⟨[], r, by simpa using hr⟩
    · rintro ⟨l, r, hlr⟩
      rcases List.append_eq_nil.mp hlr.symm with ⟨hl, rfl⟩
      rcases List.append_eq_nil.mp hl with ⟨rfl, rfl⟩
      exact ⟨[], rfl⟩
  | cons h hs ih =>
    rw [show containsSeq (h :: hs) pat =
          (isPrefixList pat (h :: hs) || containsSeq hs pat) from rfl,
        Bool.or_eq_true, isPrefixList_iff, ih]
    constructor
    · rintro (⟨r, hr⟩ | ⟨l, r, hr⟩)
      · exact ⟨[], r, by simpa using hr⟩
      · exact ⟨h :: l, r, by simp [hr]⟩
    · rintro ⟨l, r, hr⟩
      cases l with
      | nil => exact Or.inl ⟨r, by simpa using hr⟩
      | cons x xs =>
        rw [List.cons_append, List.cons_append] at hr
        injection hr with h1 h2
        exact Or.inr ⟨xs, r, h2⟩

lemma isThinking_iff (s : String) : isThinking s = true ↔ ThinkingPhrase s := by
  simp only [isThinking, containsCI, Bool.or_eq_true, containsSeq_iff,
    ThinkingPhrase, OccursCI]
  exact or_assoc

lemma waitLoop_nil (st : LoopState) : waitLoop st [] = (st, .deadline) := rfl

lemma waitLoop_cons_exit (st : LoopState) (s : TickSample) (rest : List TickSample)
    (r : ExitReason) (he : tickExit (stepCounters st s) s = some r) :
    waitLoop st (s :: rest) = (stepCounters st s, r) := by
  rw [show waitLoop st (s :: rest) =
        (match tickExit (stepCounters st s) s with
          | some r => (stepCounters st s, r)
          | none => waitLoop (stepCounters st s) rest) from rfl, he]

lemma waitLoop_cons_continue (st : LoopState) (s : TickSample) (rest : List TickSample)
    (he : tickExit (stepCounters st s) s = none) :
    waitLoop st (s :: rest) = waitLoop (stepCounters st s) rest := by
  rw [show waitLoop st (s :: rest) =
        (match tickExit (stepCounters st s) s with
          | some r => (stepCounters st s, r)
          | none => waitLoop (stepCounters st s) rest) from rfl, he]

lemma tickExit_not_stable_of_generating (st : LoopState) (s : TickSample)
    (h : s.isGenerating = true) : tickExit st s ≠ some .stable := by
  unfold tickExit
  split_ifs with h1 h2 h3 <;> simp_all

lemma waitLoop_generating (trace : List TickSample) : ∀ st : LoopState,
    (∀ t ∈ trace, t.isGenerating = true) → (waitLoop st trace).2 ≠ .stable := by
  induction trace with
  | nil =>
    intro st _
    rw [waitLoop_nil]
    simp
  | cons s rest ih =>
    intro st hall
    have hs := hall s (List.mem_cons_self ..)
    have hrest : ∀ u ∈ rest, u.isGenerating = true :=
      fun u hu => hall u (List.mem_cons_of_mem _ hu)
    have hns := tickExit_not_stable_of_generating (stepCounters st s) s hs
    cases he : tickExit (stepCounters st s) s with
    | none =>
      rw [waitLoop_cons_continue st s rest he]
      exact ih (stepCounters st s) hrest
    | some r =>
      rw [waitLoop_cons_exit st s rest r he]
      have : r ≠ .stable := fun hcon => hns (by rw [he, hcon])
      simpa using this

lemma tickExit_of_thinking (st : LoopState) (s : TickSample)
    (h : isThinking s.currentText = true) :
    tickExit st s = none ∨ tickExit st s = some .emptyTimeout := by
  unfold tickExit
  split_ifs with h1 h2 h3 <;> simp_all

lemma waitLoop_thinking (trace : List TickSample) : ∀ st : LoopState,
    (∀ t ∈ trace, isThinking t.currentText = true) →
    (waitLoop st trace).2 = .deadline ∨ (waitLoop st trace).2 = .emptyTimeout := by
  induction trace with
  | nil => intro st _; left; rfl
  | cons s rest ih =>
    intro st hall
    have hs := hall s (List.mem_cons_self ..)
    have hrest : ∀ u ∈ rest, isThinking u.currentText = true :=
      fun u hu => hall u (List.mem_cons_of_mem _ hu)
    rcases tickExit_of_thinking (stepCounters st s) s hs with he | he
    · rw [waitLoop_cons_continue st s rest he]
      exact ih (stepCounters st s) hrest
    · rw [waitLoop_cons_exit st s rest _ he]
      right
      rfl

lemma stepCounters_empty (st : LoopState) (s : TickSample)
    (hs : s.currentText = "") :
    stepCounters st s = ⟨st.lastText, st.stableCount, st.emptyLoops + 1⟩ := by
  simp [stepCounters, hs]

lemma waitLoop_all_empty (trace : List TickSample) : ∀ st : LoopState,
    (∀ s ∈ trace, s.currentText = "") → st.emptyLoops ≤ 300 →
    301 ≤ st.emptyLoops + trace.length →
    (waitLoop st trace).2 = .emptyTimeout := by
  induction trace with
  | nil =>
    intro st _ h1 h2
    simp at h2
    omega
  | cons s rest ih =>
    intro st hall h1 h2
    have hs : s.currentText = "" := hall s (List.mem_cons_self ..)
    have hrest : ∀ u ∈ rest, u.currentText = "" :=
      fun u hu => hall u (List.mem_cons_of_mem _ hu)
    have hstep := stepCounters_empty st s hs
    by_cases h300 : 300 < st.emptyLoops + 1
    · have he : tickExit (stepCounters st s) s = some .emptyTimeout := by
        rw [hstep]
        simp [tickExit, hs, h300]
      rw [waitLoop_cons_exit st s rest _ he]
    · have he : tickExit (stepCounters st s) s = none := by
        rw [hstep]
        simp [tickExit, hs, h300]
      rw [waitLoop_cons_continue st s rest he, hstep]
      refine ih _ hrest (by simp; omega) ?_
      simp at h2 ⊢
      omega

/-! ### Claim theorems -/

/-- Claim C3: while the stop button is sampled as present on a tick, the
stability-based Exit B never terminates the Phase-2 loop on that tick,
whatever the stability counter holds; Exit B fires only when the
indicator is absent, the stability counter exceeds 20, the sampled text
is non-empty, and the text is not in a thinking phase. -/
theorem exitB_blocked_while_generating (st : LoopState) (s : TickSample) :
    (s.isGenerating = true → tickExit st s ≠ some .stable) ∧
    (tickExit st s = some .stable →
      s.isGenerating = false ∧ 20 < st.stableCount ∧ 0 < s.currentText.length ∧
        isThinking s.currentText = false) ∧
    (∀ trace : List TickSample, (∀ t ∈ trace, t.isGenerating = true) →
      (waitLoop st trace).2 ≠ .stable) := by
  refine ⟨fun h => tickExit_not_stable_of_generating st s h, ?_, ?_⟩
  · intro h
    unfold tickExit at h
    split_ifs at h with h1 h2 h3 <;> simp_all
  · intro trace hall
    exact waitLoop_generating trace st hall

/-- Claim C3 witness: a tick sampled with the stop button present cannot
fire Exit B even with a large stability counter. -/
theorem exitB_blocked_while_generating_witness :
    tickExit ⟨"hi", 100, 0⟩ ⟨"hi", true, false⟩ ≠ some .stable :=
  (exitB_blocked_while_generating ⟨"hi", 100, 0⟩ ⟨"hi", true, false⟩).1 rfl

/-- Claim C4: on every tick, growth of the sampled text (the code observes
growth as a strict length increase) resets both counters to zero;
otherwise non-empty text increments the stability counter and empty text
increments the empty-tick counter; and this counter update is exactly the
state transformation the loop applies before its exit checks. -/
theorem counter_updates_per_tick (st : LoopState) (s : TickSample) :
    (st.lastText.length < s.currentText.length →
      stepCounters st s = ⟨s.currentText, 0, 0⟩) ∧
    (¬ st.lastText.length < s.currentText.length → 0 < s.currentText.length →
      stepCounters st s = ⟨st.lastText, st.stableCount + 1, st.emptyLoops⟩) ∧
    (s.currentText.length = 0 →
      stepCounters st s = ⟨st.lastText, st.stableCount, st.emptyLoops + 1⟩) ∧
    (∀ rest : List TickSample, tickExit (stepCounters st s) s = none →
      waitLoop st (s :: rest) = waitLoop (stepCounters st s) rest) := by
  refine ⟨?_, ?_, ?_, ?_⟩
  · intro h
    simp [stepCounters, h]
  · intro h1 h2
    simp [stepCounters, h1, h2]
  · intro h
    have h1 : ¬ st.lastText.length < s.currentText.length := by omega
    have h2 : ¬ 0 < s.currentText.length := by omega
    simp [stepCounters, h1, h2]
  · intro rest he
    exact waitLoop_cons_continue st s rest he

/-- Claim C4 witness: a growth tick resets both counters. -/
theorem counter_updates_per_tick_witness :
    stepCounters ⟨"a", 5, 7⟩ ⟨"ab", false, false⟩ = ⟨"ab", 0, 0⟩ :=
  (counter_updates_per_tick ⟨"a", 5, 7⟩ ⟨"ab", false, false⟩).1 (by decide)

/-- Claim C9: the thinking test is a case-insensitive substring match of
"Thinking", "Reasoning" or "Answer now" anywhere in the sampled text; on
any tick whose text matches, neither Exit A nor Exit B can fire, so a
trace all of whose samples match ends only through the overall deadline
or the empty-tick safety valve. -/
theorem thinking_suppresses_exits (st : LoopState) (s : TickSample) :
    (isThinking s.currentText = true ↔ ThinkingPhrase s.currentText) ∧
    (ThinkingPhrase s.currentText →
      tickExit st s ≠ some .done ∧ tickExit st s ≠ some .stable) ∧
    (∀ trace : List TickSample, (∀ t ∈ trace, ThinkingPhrase t.currentText) →
      (waitLoop st trace).2 = .deadline ∨ (waitLoop st trace).2 = .emptyTimeout) := by
  refine ⟨isThinking_iff s.currentText, ?_, ?_⟩
  · intro h
    have hb := (isThinking_iff s.currentText).mpr h
    rcases tickExit_of_thinking st s hb with he | he <;> rw [he] <;> simp
  · intro trace hall
    exact waitLoop_thinking trace st
      (fun t ht => (isThinking_iff t.currentText).mpr (hall t ht))

/-- Claim C9 witness: a sample whose text contains "Thinking" cannot fire
Exit A even with the completion marker present and non-empty text. -/
theorem thinking_suppresses_exits_witness :
    tickExit ⟨"", 25, 0⟩ ⟨"Thinking about it", false, true⟩ ≠ some .done := by
  have h := thinking_suppresses_exits ⟨"", 25, 0⟩ ⟨"Thinking about it", false, true⟩
  exact (h.2.1 (h.1.mp (by decide))).1

lemma trimChars_nil_iff (s : String) :
    trimChars s = [] ↔ ∀ c ∈ s.data, isJsWhitespace c = true := by
  unfold trimChars
  rw [List.reverse_eq_nil_iff, List.dropWhile_eq_nil_iff]
  have hsplit := List.takeWhile_append_dropWhile isJsWhitespace s.data
  constructor
  · intro h c hc
    rw [← hsplit] at hc
    rcases List.mem_append.mp hc with hm | hm
    · exact List.mem_takeWhile_imp hm
    · exact h c (List.mem_reverse.mpr hm)
  · intro h c hc
    have hc' : c ∈ s.data.dropWhile isJsWhitespace := List.mem_reverse.mp hc
    refine h c ?_
    rw [← hsplit]
    exact List.mem_append.mpr (Or.inr hc')

/-- Claim C2: the input delivery pipeline respects strict strategy order:
paste is always attempted first; typing is attempted if and only if the
read-back after paste is empty after trimming; direct injection is
attempted if and only if the read-back after the typing step is still
empty after trimming; a non-empty trimmed read-back stops the
escalation (so injection never follows a non-empty read-back). -/
theorem delivery_strategy_order (env : DeliveryEnv) :
    (Strategy.paste ∈ (runDelivery env).attempts) ∧
    ((runDelivery env).attempts.isPrefixOf
        [Strategy.paste, Strategy.typing, Strategy.inject] = true) ∧
    (Strategy.typing ∈ (runDelivery env).attempts ↔ trimChars env.pasteResult = []) ∧
    (Strategy.inject ∈ (runDelivery env).attempts ↔
      trimChars (readAfterTyping env) = []) ∧
    (¬ trimChars env.pasteResult = [] → (runDelivery env).attempts = [Strategy.paste]) ∧
    (trimChars env.pasteResult = [] → ¬ trimChars (readAfterTyping env) = [] →
      (runDelivery env).attempts = [Strategy.paste, Strategy.typing]) := by
  unfold runDelivery readAfterTyping
  by_cases h1 : trimChars env.pasteResult = [] <;>
    by_cases h2 : trimChars env.typeResult = [] <;>
      simp [h1, h2, List.isPrefixOf]

/-- Claim C2 witness: with an empty paste read-back and a successful typing
read-back, the pipeline attempts paste then typing and stops. -/
theorem delivery_strategy_order_witness :
    (runDelivery ⟨" ", "typed"⟩).attempts = [Strategy.paste, Strategy.typing] :=
  (delivery_strategy_order ⟨" ", "typed"⟩).2.2.2.2.2 (by decide) (by decide)

/-- Claim C8: the submission trigger's decision procedure: an enabled send
control is clicked; a disabled control with a non-empty trimmed verified
input gets exactly one wake sequence, then a click if enabled or the
Enter fallback if still disabled; an absent control goes straight to
Enter; the wake sequence runs at most once and the Enter keystroke, when
used, is pressed exactly once. -/
theorem submission_decision (sb : Option Bool) (cv : String) (dw : Bool) :
    (sb = some false → submitActions sb cv dw = [SubmitAction.clickSend]) ∧
    (sb = some true → ¬ trimChars cv = [] →
      submitActions sb cv dw =
        if dw = true then [SubmitAction.wake, SubmitAction.pressEnter]
        else [SubmitAction.wake, SubmitAction.clickSend]) ∧
    (sb = none → submitActions sb cv dw = [SubmitAction.pressEnter]) ∧
    ((submitActions sb cv dw).count SubmitAction.wake ≤ 1) ∧
    (SubmitAction.pressEnter ∈ submitActions sb cv dw →
      (submitActions sb cv dw).count SubmitAction.pressEnter = 1) := by
  refine ⟨?_, ?_, ?_, ?_, ?_⟩
  · rintro rfl
    simp [submitActions]
  · rintro rfl hcv
    by_cases hdw : dw = true <;> simp [submitActions, hcv, hdw]
  · rintro rfl
    simp [submitActions]
  · rcases sb with _ | d
    · simp [submitActions]
    · by_cases ht : trimChars cv = []
      · by_cases hd : d = true <;> simp [submitActions, ht, hd]
      · by_cases hd : d = true
        · by_cases hdw : dw = true <;> simp [submitActions, ht, hd, hdw]
        · simp [submitActions, ht, hd]
  · rcases sb with _ | d
    · simp [submitActions]
    · by_cases ht : trimChars cv = []
      · by_cases hd : d = true <;> simp [submitActions, ht, hd]
      · by_cases hd : d = true
        · by_cases hdw : dw = true <;> simp [submitActions, ht, hd, hdw]
        · simp [submitActions, ht, hd]

/-- Claim C8 witness: a permanently disabled send control with non-empty
input gets one wake sequence and then exactly one Enter keystroke. -/
theorem submission_decision_witness :
    submitActions (some true) "hello" true =
      [SubmitAction.wake, SubmitAction.pressEnter] := by
  have h := (submission_decision (some true) "hello" true).2.1 rfl (by decide)
  simpa using h

lemma waitForNewAssistantMessage_ok_iff (counts : List Nat) (i : Nat) :
    waitForNewAssistantMessage counts i = .ok () ↔ ∃ c ∈ counts, i < c := by
  induction counts with
  | nil => simp [waitForNewAssistantMessage]
  | cons c rest ih =>
    rw [show waitForNewAssistantMessage (c :: rest) i =
          (if i < c then .ok ()
           else waitForNewAssistantMessage rest i) from rfl]
    by_cases h : i < c
    · rw [if_pos h]
      exact ⟨fun _ => ⟨c, List.mem_cons_self .., h⟩, fun _ => rfl⟩
    · rw [if_neg h, ih]
      constructor
      · rintro ⟨x, hx, hix⟩
        exact ⟨x, List.mem_cons_of_mem _ hx, hix⟩
      · rintro ⟨x, hx, hix⟩
        rcases List.mem_cons.mp hx with rfl | hx2
        · omega
        · exact ⟨x, hx2, hix⟩

lemma waitForNewAssistantMessage_error_iff (counts : List Nat) (i : Nat) :
    waitForNewAssistantMessage counts i =
        .error "Assistant response did not arrive before timeout" ↔
      ∀ c ∈ counts, c ≤ i := by
  induction counts with
  | nil => simp [waitForNewAssistantMessage]
  | cons c rest ih =>
    rw [show waitForNewAssistantMessage (c :: rest) i =
          (if i < c then .ok ()
           else waitForNewAssistantMessage rest i) from rfl]
    by_cases h : i < c
    · rw [if_pos h]
      constructor
      · intro hcontra
        exact absurd hcontra (by simp)
      · intro hall
        exact absurd (hall c (List.mem_cons_self ..)) (by omega)
    · rw [if_neg h, ih]
      constructor
      · intro hall x hx
        rcases List.mem_cons.mp hx with rfl | hx'
        · omega
        · exact hall x hx'
      · intro hall x hx
        exact hall x (List.mem_cons_of_mem _ hx)

lemma waitForNewAssistantMessage_first (pre : List Nat) :
    ∀ (i c : Nat) (post : List Nat), (∀ x ∈ pre, x ≤ i) → i < c →
      waitForNewAssistantMessage (pre ++ c :: post) i = .ok () := by
  induction pre with
  | nil =>
    intro i c post _ hc
    simp [waitForNewAssistantMessage, hc]
  | cons x xs ih =>
    intro i c post hall hc
    have hx : x ≤ i := hall x (List.mem_cons_self ..)
    have hnx : ¬ i < x := by omega
    rw [List.cons_append]
    rw [show waitForNewAssistantMessage (x :: (xs ++ c :: post)) i =
          (if i < x then .ok ()
           else waitForNewAssistantMessage (xs ++ c :: post) i) from rfl,
        if_neg hnx]
    exact ih i c post (fun y hy => hall y (List.mem_cons_of_mem _ hy)) hc

/-- Claim C6: Phase 1 throws the arrival failure if and only if no sampled
assistant-message count within the deadline strictly exceeds the
pre-submission count; it returns normally as soon as a sample exceeds it,
regardless of any later samples. -/
theorem arrival_failure_iff (counts : List Nat) (i : Nat) :
    (waitForNewAssistantMessage counts i =
        .error "Assistant response did not arrive before timeout" ↔
      ∀ c ∈ counts, c ≤ i) ∧
    (waitForNewAssistantMessage counts i = .ok () ↔ ∃ c ∈ counts, i < c) ∧
    (∀ pre c post, counts = pre ++ c :: post → (∀ x ∈ pre, x ≤ i) → i < c →
      waitForNewAssistantMessage counts i = .ok ()) := by
  refine ⟨waitForNewAssistantMessage_error_iff counts i,
    waitForNewAssistantMessage_ok_iff counts i, ?_⟩
  rintro pre c post rfl hall hc
  exact waitForNewAssistantMessage_first pre i c post hall hc

/-- Claim C6 witness: arrival polling succeeds on the first sample that
exceeds the pre-submission count, ignoring later samples. -/
theorem arrival_failure_iff_witness :
    waitForNewAssistantMessage [1, 2, 0] 1 = .ok () :=
  (arrival_failure_iff [1, 2, 0] 1).2.2 [1] 2 [0] rfl (by decide) (by decide)

/-- Claim C5: the Phase-2 safety valve is a soft timeout: on a trace with
no text ever observed that is long enough for the empty-tick counter to
exceed 300, the loop exits through the safety valve and `waitForAnswer`
returns normally with whatever text the final extraction samples —
possibly the empty string — rather than throwing. -/
theorem safety_valve_soft_timeout (arrival : List Nat) (i : Nat)
    (trace : List TickSample) (ft : String) (fh : Option String) (t : Nat)
    (harr : waitForNewAssistantMessage arrival i = .ok ())
    (hempty : ∀ s ∈ trace, s.currentText = "")
    (hlen : 301 ≤ trace.length) :
    (waitLoop ⟨"", 0, 0⟩ trace).2 = .emptyTimeout ∧
    waitForAnswer arrival i trace ft fh t = .ok ⟨ft, fh, t⟩ := by
  refine ⟨waitLoop_all_empty trace ⟨"", 0, 0⟩ hempty (by decide)
    (by simpa using hlen), ?_⟩
  unfold waitForAnswer
  rw [harr]

set_option maxRecDepth 10000 in
/-- Claim C5 witness: 301 empty ticks return an empty answer normally. -/
theorem safety_valve_soft_timeout_witness :
    waitForAnswer [1] 0 (List.replicate 301 ⟨"", false, false⟩) "" none 0 =
      .ok ⟨"", none, 0⟩ :=
  (safety_valve_soft_timeout [1] 0 (List.replicate 301 ⟨"", false, false⟩) "" none 0
    rfl (fun s hs => by rw [List.eq_of_mem_replicate hs])
    (le_of_eq (List.length_replicate 301 ⟨"", false, false⟩).symm)).2

lemma finishRun_error (est : String → Nat) (e : String) :
    finishRun est (.error e) = .error .answerDidNotArrive := rfl

lemma finishRun_ok (est : String → Nat) (a : AnswerOutcome) :
    finishRun est (.ok a) = .ok (buildRunResult est a) := rfl

lemma runStealth_none (est : String → Nat) (p : Option String) (env : RunEnv)
    (hcp : checkPromptText p = none) :
    runStealth est p env = .error .promptRequired := by
  unfold runStealth
  rw [hcp]

lemma runStealth_some (est : String → Nat) (p : Option String) (env : RunEnv)
    (pt : List Char) (hcp : checkPromptText p = some pt) :
    runStealth est p env =
      (if env.promptHandleFound = false then .error .promptHandleNotFound
       else
        finishRun est (waitForAnswer env.arrivalCounts env.initialAssistantCount
          env.answerTrace env.finalText env.finalHtml env.finalElapsedMs)) := by
  unfold runStealth
  rw [hcp]

/-- Claim C7: a missing, empty, or all-whitespace prompt makes `runStealth`
fail with the prompt-required error before any page observation is
consumed (the error is independent of the entire page environment); a
prompt with non-whitespace content never produces that failure. -/
theorem prompt_required_guard (est : String → Nat) (p : Option String) (env : RunEnv) :
    ((p = none ∨ ∃ s, p = some s ∧ ∀ c ∈ s.data, isJsWhitespace c = true) →
      runStealth est p env = .error .promptRequired) ∧
    (∀ s, p = some s → ¬ (∀ c ∈ s.data, isJsWhitespace c = true) →
      runStealth est p env ≠ .error .promptRequired) := by
  constructor
  · rintro (rfl | ⟨s, rfl, hws⟩)
    · rfl
    · have hnil : trimChars s = [] := (trimChars_nil_iff s).mpr hws
      refine runStealth_none est (some s) env ?_
      rw [show checkPromptText (some s) =
            (if trimChars s = [] then none else some (trimChars s)) from rfl,
        if_pos hnil]
  · rintro s rfl hws
    have hnil : ¬ trimChars s = [] := fun h => hws ((trimChars_nil_iff s).mp h)
    have hcp : checkPromptText (some s) = some (trimChars s) := by
      rw [show checkPromptText (some s) =
            (if trimChars s = [] then none else some (trimChars s)) from rfl,
        if_neg hnil]
    rw [runStealth_some est (some s) env (trimChars s) hcp]
    split_ifs with hf
    · simp
    · cases hwa : waitForAnswer env.arrivalCounts env.initialAssistantCount
          env.answerTrace env.finalText env.finalHtml env.finalElapsedMs with
      | error e =>
        rw [finishRun_error]
        simp
      | ok answer =>
        rw [finishRun_ok]
        simp

/-- Claim C7 witness: a whitespace-only prompt fails with the
prompt-required error whatever the page environment holds. -/
theorem prompt_required_guard_witness :
    runStealth String.length (some "  ")
        ⟨[], true, ⟨"p", "t"⟩, 0, some false, false, [1], [], "hi", none, 5⟩ =
      .error .promptRequired :=
  (prompt_required_guard String.length (some "  ")
      ⟨[], true, ⟨"p", "t"⟩, 0, some false, false, [1], [], "hi", none, 5⟩).1
    (Or.inr ⟨"  ", rfl, by decide⟩)

/-- Claim C10: whenever `runStealth` returns normally, the markdown field
equals the answer text, the character count is the answer text's length,
and the token count is the token estimate of the answer text — all three
derived fields come from the same extracted text. -/
theorem run_result_fields_coherent (est : String → Nat) (p : Option String)
    (env : RunEnv) (r : BrowserRunResult)
    (h : runStealth est p env = .ok r) :
    r.answerMarkdown = r.answerText ∧ r.answerChars = r.answerText.length ∧
    r.answerTokens = est r.answerText := by
  cases hp : checkPromptText p with
  | none =>
    rw [runStealth_none est p env hp] at h
    exact Except.noConfusion h
  | some pt =>
    rw [runStealth_some est p env pt hp] at h
    by_cases hf : env.promptHandleFound = false
    · rw [if_pos hf] at h
      exact Except.noConfusion h
    · rw [if_neg hf] at h
      cases hwa : waitForAnswer env.arrivalCounts env.initialAssistantCount
          env.answerTrace env.finalText env.finalHtml env.finalElapsedMs with
      | error e =>
        rw [hwa, finishRun_error] at h
        exact Except.noConfusion h
      | ok answer =>
        rw [hwa, finishRun_ok] at h
        simp only [Except.ok.injEq] at h
        subst h
        simp [buildRunResult]

/-- Claim C10 witness: a concrete successful run has coherent derived
fields. -/
theorem run_result_fields_coherent_witness :
    ("hi" : String) = "hi" ∧ (2 : Nat) = String.length "hi" ∧
      (2 : Nat) = String.length "hi" :=
  run_result_fields_coherent String.length (some "x")
    ⟨[], true, ⟨"p", "t"⟩, 0, some false, false, [1], [], "hi", none, 5⟩
    ⟨"hi", "hi", none, 5, 2, 2⟩ rfl

lemma cleanSuffixLen_concat (l : List Bool) (r : Bool) :
    cleanSuffixLen (l ++ [r]) = if r then 0 else cleanSuffixLen l + 1 := by
  unfold cleanSuffixLen
  rw [List.reverse_append]
  cases r <;> simp [List.takeWhile_cons]

lemma solveGo_some_iff (rest : List Bool) : ∀ (pre : List Bool) (n : Nat),
    (∀ m, m ≤ pre.length → cleanSuffixLen (pre.take m) < 4) →
    (solveGo rest (cleanSuffixLen pre) pre.length = some n ↔
      (4 ≤ cleanSuffixLen ((pre ++ rest).take n) ∧
       ∀ m, m < n → cleanSuffixLen ((pre ++ rest).take m) < 4)) := by
  induction rest with
  | nil =>
    intro pre n hpre
    rw [show solveGo [] (cleanSuffixLen pre) pre.length = none from rfl]
    simp only [List.append_nil]
    constructor
    · intro hcon
      exact Option.noConfusion hcon
    · rintro ⟨h4, hmin⟩
      exfalso
      by_cases hn : n ≤ pre.length
      · have := hpre n hn
        omega
      · rw [List.take_of_length_le (by omega)] at h4
        have := hpre pre.length (le_refl _)
        rw [List.take_length] at this
        omega
  | cons r rest' ih =>
    intro pre n hpre
    rw [show solveGo (r :: rest') (cleanSuffixLen pre) pre.length =
          (if r then solveGo rest' 0 (pre.length + 1)
           else if 3 < cleanSuffixLen pre + 1 then some (pre.length + 1)
           else solveGo rest' (cleanSuffixLen pre + 1) (pre.length + 1)) from rfl]
    cases r with
    | true =>
      rw [if_pos rfl]
      have h0 : cleanSuffixLen (pre ++ [true]) = 0 := by
        rw [cleanSuffixLen_concat]
        simp
      have hlen : pre.length + 1 = (pre ++ [true]).length := by simp
      have hpre' : ∀ m, m ≤ (pre ++ [true]).length →
          cleanSuffixLen ((pre ++ [true]).take m) < 4 := by
        intro m hm
        rcases Nat.lt_or_ge m ((pre ++ [true]).length) with hlt | hge
        · have hm' : m ≤ pre.length := by
            simp only [List.length_append, List.length_cons, List.length_nil] at hlt
            omega
          rw [List.take_append_of_le_length hm']
          exact hpre m hm'
        · have hm' : m = (pre ++ [true]).length := le_antisymm hm hge
          rw [hm', List.take_length, h0]
          omega
      have happ : (pre ++ [true]) ++ rest' = pre ++ true :: rest' := by simp
      have hiff := ih (pre ++ [true]) n hpre'
      rw [happ, h0, ← hlen] at hiff
      exact hiff
    | false =>
      rw [if_neg (by simp)]
      have hcsl : cleanSuffixLen (pre ++ [false]) = cleanSuffixLen pre + 1 := by
        rw [cleanSuffixLen_concat]
        simp
      have htake1 : (pre ++ false :: rest').take (pre.length + 1) = pre ++ [false] := by
        rw [List.take_append]
        rfl
      by_cases h3 : 3 < cleanSuffixLen pre + 1
      · rw [if_pos h3]
        have hc3 : cleanSuffixLen pre = 3 := by
          have := hpre pre.length (le_refl _)
          rw [List.take_length] at this
          omega
        constructor
        · intro hsome
          have hn : n = pre.length + 1 := by
            injection hsome with h'
            omega
          subst hn
          refine ⟨?_, ?_⟩
          · rw [htake1, hcsl, hc3]
          · intro m hm
            have hm' : m ≤ pre.length := by omega
            rw [List.take_append_of_le_length hm']
            exact hpre m hm'
        · rintro ⟨h4, hmin⟩
          have hn : n = pre.length + 1 := by
            by_contra hne
            rcases Nat.lt_or_ge n (pre.length + 1) with hlt | hge
            · have hn' : n ≤ pre.length := by omega
              rw [List.take_append_of_le_length hn'] at h4
              have := hpre n hn'
              omega
            · have hgt : pre.length + 1 < n := by omega
              have hx := hmin (pre.length + 1) hgt
              rw [htake1, hcsl, hc3] at hx
              omega
          rw [hn]
      · rw [if_neg h3]
        have hlen : pre.length + 1 = (pre ++ [false]).length := by simp
        have hpre' : ∀ m, m ≤ (pre ++ [false]).length →
            cleanSuffixLen ((pre ++ [false]).take m) < 4 := by
          intro m hm
          rcases Nat.lt_or_ge m ((pre ++ [false]).length) with hlt | hge
          · have hm' : m ≤ pre.length := by
              simp only [List.length_append, List.length_cons, List.length_nil] at hlt
              omega
            rw [List.take_append_of_le_length hm']
            exact hpre m hm'
          · have hm' : m = (pre ++ [false]).length := le_antisymm hm hge
            rw [hm', List.take_length, hcsl]
            omega
        have happ : (pre ++ [false]) ++ rest' = pre ++ false :: rest' := by simp
        have hiff := ih (pre ++ [false]) n hpre'
        rw [happ, hcsl, ← hlen] at hiff
        exact hiff

/-- Claim C1 (amended): the challenge resolver declares Clean exactly on
the first tick at which the 4th consecutive clean detection occurs — the
first processed prefix whose clean suffix reaches length 4 — and never
earlier; a challenge-present tick resets the consecutive-clean counter
to zero. -/
theorem clean_declared_on_fourth_clean_tick (readings : List Bool) (n : Nat) :
    (solveCloudflareRun readings = some n ↔
      (4 ≤ cleanSuffixLen (readings.take n) ∧
       ∀ m, m < n → cleanSuffixLen (readings.take m) < 4)) ∧
    (∀ rest c t, solveGo (true :: rest) c t = solveGo rest 0 (t + 1)) := by
  constructor
  · have h := solveGo_some_iff readings [] n ?_
    · simpa [solveCloudflareRun] using h
    · intro m hm
      simp only [List.length_nil, Nat.le_zero] at hm
      subst hm
      decide
  · intro rest c t
    rfl

/-- Claim C1 witness: four consecutive clean detections declare Clean on
tick 4, the first tick whose last four readings are clean. -/
theorem clean_declared_on_fourth_clean_tick_witness :
    solveCloudflareRun [false, false, false, false] = some 4 :=
  ((clean_declared_on_fourth_clean_tick [false, false, false, false] 4).1).mpr
    (by decide)

/-- Claim C1 counterexample: on a trace of exactly three clean detections
the 3rd consecutive clean reading occurs on tick 3 (the clean streak is
3), yet the resolver does not return normally there — the loop's
post-increment check `consecutiveCleanChecks > 3` requires a 4th
consecutive clean tick. -/
theorem clean_after_three_ticks_refuted :
    cleanSuffixLen ([false, false, false].take 3) = 3 ∧
    solveCloudflareRun [false, false, false] = none := by decide

end Oracle
